import Mathlib

/-!
Shallow embedding of the FireOS package intake-and-verification pipeline.

Source files embedded here:
* the app-upload route (`POST` in the upload route, `src/unnamed/part_000`):
  dedup check by content hash, S3 blob upload, JSZip entry enumeration,
  malicious-pattern check, icon/screenshot extraction, metadata insert,
  scan trigger;
* the scan route (`src/src/api/scan/route.js`): four-engine fan-out
  (ClamAV, VirusTotal, YARA, local heuristic), result compilation,
  verdict aggregation, metadata update, threat logging, admin notification,
  and the local `heuristicAnalysis` / `calculateEntropy` functions;
* the install route (`src/src/api/install/route.js`): the `verified` guard
  and the install side-effect sequence.

External collaborators (SHA-256, JSZip parsing, byte-to-text decoding, the
known-bad-certificate JSON file, the S3 bucket name, wall-clock time) are
modelled as an explicit environment record `Env`: the JavaScript treats each
of them as a black box, and no claim depends on their internals.

Machine-level notes. Bytes are `Fin 256` (Node `Buffer` cells). Entry names
and all other strings are Lean `String`s, but the character-level operations
(`toLowerCase`, `endsWith`, substring search, `split('.')`) are implemented
here over `String.data` so that they compute by `decide`; they agree with the
ASCII semantics of the JavaScript originals.
-/

namespace FireOS

abbrev Byte := Fin 256

abbrev Bytes := List Byte

/-- Lower-case a string character-wise: models JavaScript `toLowerCase()` and
the `i` regex flag for the ASCII strings that appear in the source. -/
def lowerStr (s : String) : String := ⟨s.data.map Char.toLower⟩

/-- Here `strEndsWith s t` models the regex `t$` (with `t` literal): the anchored
suffix tests of the source. -/
def strEndsWith (s t : String) : Bool := t.data.isSuffixOf s.data

/-- Here `segIn pat l` is true when `pat` occurs contiguously inside `l`. -/
def segIn (pat : List Char) : List Char → Bool
  | [] => pat.isPrefixOf []
  | c :: cs => pat.isPrefixOf (c :: cs) || segIn pat cs

/-- Here `strContains s pat` models JavaScript `s.includes(pat)` and an unanchored
literal regex test. -/
def strContains (s pat : String) : Bool := segIn pat.data s.data

/-- Split a character list at `'.'`, keeping empty segments: the character-level
behaviour of JavaScript `split('.')`. -/
def splitDot : List Char → List (List Char)
  | [] => [[]]
  | c :: cs =>
    match splitDot cs with
    | [] => []
    | h :: t => if c = '.' then [] :: h :: t else (c :: h) :: t

/-- Models `file.originalname.split(".").pop()` from the upload route. -/
def extOf (s : String) : String := ⟨(splitDot s.data).getLastD []⟩

/-- One entry of a JSZip archive: its key in `zipContents.files` and its
decompressed content. -/
structure ZipEntry where
  name : String
  content : Bytes

/-- The result of `JSZip.loadAsync`: the enumerable `files` map, in
enumeration order. -/
structure Archive where
  files : List ZipEntry

/-- Models `zip.file(name)`: exact-name lookup in the archive. -/
def Archive.file (a : Archive) (n : String) : Option ZipEntry :=
  a.files.find? (fun e => e.name = n)

/-- The manifest JSON submitted alongside the package file. -/
structure Manifest where
  name : String
  version : String
  type : String
  entryPoint : String
  permissions : List String
  description : String
  author : String
  license : String

/-- A reason pushed onto `suspiciousIndicators` by `heuristicAnalysis`
(scan route, lines 208–295). The constructors carry the data the source
interpolates into its human-readable strings; the string formatting itself
(including `entropy.toFixed(2)`) is presentation and is abstracted away. -/
inductive Reason where
  | suspiciousFiles (files : List String)
  | embeddedExecutable (file : String)
  | excessivePermissions (perms : List String)
  | debugMode
  | highEntropy (e : ℝ)
  | knownBadCert

/-- Return value of `scanWithClamAV` when the task fulfils. -/
structure ClamResult where
  is_infected : Bool
  viruses : List String

/-- Return value of `scanWithVirusTotal` when the task fulfils. -/
structure VTResult where
  positives : Nat
  total : Nat

/-- Return value of `scanWithYARA` when the task fulfils. The field is named
`matches` in the source; that word is a Lean keyword, so it is `rule_matches`
here. -/
structure YaraResult where
  rule_matches : List String

/-- Return value of `heuristicAnalysis`. On the success path the source
returns `{suspicious, reasons, entropy, file_count}`; on the catch path it
returns `{suspicious: false, error}` with no `reasons`/`entropy`/`file_count`
fields, modelled as `[]`/`none`/`none`. -/
structure HeurResult where
  suspicious : Bool
  reasons : List Reason
  entropy : Option ℝ
  file_count : Option Nat
  error : Option String

/-- One threat string pushed by the scan route (lines 74–90), with the
formatted payload kept as structured data. -/
inductive Threat where
  | clamav (viruses : List String)
  | virustotal (positives total : Nat)
  | yara (rules : List String)
  | heuristic (reasons : List Reason)

/-- The `results` object compiled at scan-route lines 65–71. Each engine slot
is `none` when the corresponding `Promise.allSettled` entry was rejected.
`overall` is initialised to `"clean"` and — exactly as in the source — never
updated afterwards. -/
structure ScanResults where
  clamav : Option ClamResult
  virustotal : Option VTResult
  yara : Option YaraResult
  heuristic : Option HeurResult
  overall : String

/-- A row of the `apps` table, with exactly the columns the three routes read
or write. Columns never supplied by the intake insert (upload route lines
180–200 list no `status`, `last_scan`, `scan_results` or `threats` value) are
`Option` fields that start as `none`. -/
structure AppRecord where
  id : Nat
  name : String
  version : String
  type : String
  entry_point : String
  permissions : List String
  description : String
  author : String
  license : String
  icon_url : Option String
  screenshot_urls : List String
  download_url : String
  hash : String
  size : Nat
  verified : Bool
  upload_date : String
  downloads : Nat
  rating : Nat
  status : Option String
  last_scan : Option String
  scan_results : Option ScanResults
  threats : Option (List Threat)

/-- A row of `threat_logs` (scan route lines 108–116). -/
structure ThreatLogEntry where
  app_id : Nat
  file_hash : String
  threats : List Threat
  scan_results : ScanResults
  detected_at : String

/-- A row of `admin_notifications` (`notifyAdmin`, scan route lines 316–327). -/
structure AdminNotification where
  type : String
  app_id : Nat
  threats : List Threat
  created_at : String
  priority : String

/-- A row of `installations` (install route lines 109–122). -/
structure Installation where
  user_id : Nat
  app_id : Nat
  installed_at : String
  installation_path : String
  version : String
  status : String
  permissions : List String
  data_path : String

/-- A row of `shortcuts` (install route lines 163–179). -/
structure Shortcut where
  user_id : Nat
  app_id : Nat
  name : String
  icon : Option String
  exec : String

/-- The Supabase tables the three routes touch, plus the id the database
assigns to the next inserted `apps` row. -/
structure DB where
  apps : List AppRecord
  threat_logs : List ThreatLogEntry
  admin_notifications : List AdminNotification
  installations : List Installation
  shortcuts : List Shortcut
  nextId : Nat

/-- The S3 bucket contents: keys mapped to stored bodies. `put` models
`PutObjectCommand` (later puts shadow earlier ones under the same key). -/
structure S3State where
  objects : List (String × Bytes)

def S3State.put (s : S3State) (k : String) (b : Bytes) : S3State :=
  ⟨(k, b) :: s.objects⟩

def S3State.hasKey (s : S3State) (k : String) : Bool :=
  s.objects.any (fun o => o.1 = k)

/-- The external collaborators of the pipeline, as the routes consume them:
`sha256` is `crypto.createHash` with SHA-256, hex digest; `loadZip` is
`JSZip.loadAsync` (`.error` = the rejection message of a corrupt archive);
`asText` is `entry.async` in text mode; `knownBadCerts` is `known_certs.json`;
`bucket` is `process.env.S3_BUCKET`; `now` is `new Date().toISOString()`. -/
structure Env where
  sha256 : Bytes → String
  loadZip : Bytes → Except String Archive
  asText : Bytes → String
  knownBadCerts : List String
  bucket : String
  now : String

/-- The `maliciousPatterns` denylist of the upload route (lines 104–108):
`/\.(exe|bat|sh|php|py|js)$/i` split into its alternatives. -/
def maliciousSuffixes : List String :=
  [".exe", ".bat", ".sh", ".php", ".py", ".js"]

/-- Models `maliciousPatterns.some(pattern => pattern.test(filename))` (upload route
line 112). The suffix alternation carries the `i` flag, so it is matched on
the lower-cased name; `/__MACOSX/` and `/\.DS_Store/` carry no flag, so they
are case-sensitive substring tests. -/
def matchesMaliciousPattern (name : String) : Bool :=
  maliciousSuffixes.any (fun s => strEndsWith (lowerStr name) s) ||
  strContains name "__MACOSX" ||
  strContains name ".DS_Store"

/-- What §4.1 of the specification describes: every denylist pattern — the
executable/script suffixes and the junk artifacts alike — matched
case-insensitively. Stated from the specification's words, for comparison
with `matchesMaliciousPattern` above, which is translated from the source. -/
def specCaseInsensitiveMatch (name : String) : Bool :=
  maliciousSuffixes.any (fun s => strEndsWith (lowerStr name) s) ||
  strContains (lowerStr name) (lowerStr "__MACOSX") ||
  strContains (lowerStr name) (lowerStr ".DS_Store")

namespace Upload

/-- The distinct responses of the upload route `POST`. `maliciousDetected`
is the 400 response of lines 124–130; the model never produces it because
the `DeleteObjectCommand` on line 119 is not among the imports of line 3,
so reaching that branch throws a `ReferenceError` first (see `POST` below). -/
inductive Response where
  | missingParams
  | conflict
  | maliciousDetected (files : List String)
  | serverError (msg : String)
  | ok (app : AppRecord)

def Response.isOk : Response → Bool
  | .ok _ => true
  | _ => false

/-- Outcome of one upload request: the HTTP response, the two stores after
the request, and whether the scan worker was notified (the `fetch` of
lines 209–217). -/
structure Outcome where
  response : Response
  db : DB
  s3 : S3State
  scanTriggered : Bool

/-- The `icon.png` candidate chain of upload-route lines 138–140. -/
def findIcon (zipContents : Archive) : Option ZipEntry :=
  ((zipContents.file "icon.png").orElse fun _ =>
    (zipContents.file "assets/icon.png").orElse fun _ =>
      zipContents.file "res/drawable/icon.png")

/-- The screenshot filter of upload-route lines 157–158:
name contains `screenshot` and has a `png`/`jpg`/`jpeg` extension
(case-insensitive suffix, case-sensitive substring). -/
def isScreenshotName (n : String) : Bool :=
  strContains n "screenshot" &&
  ([".png", ".jpg", ".jpeg"].any fun s => strEndsWith (lowerStr n) s)

/-- The upload route `POST` (`src/unnamed/part_000`, lines 50–238).

Faithful control flow: hash the raw bytes; look the hash up in `apps`
(409 on a hit, before any storage write); upload the blob to S3 under
`apks/<hash>.<ext>`; open the archive with JSZip (a rejection is caught by
the outer handler: 500, blob retained); collect every entry name matching
`maliciousPatterns`; when any match exists the source reaches
`new DeleteObjectCommand(...)` on line 119 — an identifier that is never
imported (line 3 imports only `S3Client` and `PutObjectCommand`) — so the
branch throws `ReferenceError: DeleteObjectCommand is not defined`, the outer
catch returns a 500 with that message, the blob stays in S3, and the 400
`maliciousDetected` response of lines 124–130 is unreachable; otherwise
upload icon and up to five screenshots, insert the `apps` row (note: no
`status` column in the insert), trigger the scan worker, and return the new
record. -/
def POST (env : Env) (db : DB) (s3 : S3State) (fileName : String)
    (buffer : Bytes) (manifest : Manifest) : Outcome :=
  let fileHash := env.sha256 buffer
  match db.apps.find? (fun a => a.hash = fileHash) with
  | some _ => ⟨.conflict, db, s3, false⟩
  | none =>
    let s3Key := "apks/" ++ fileHash ++ "." ++ extOf fileName
    let s3a := s3.put s3Key buffer
    match env.loadZip buffer with
    | .error e => ⟨.serverError e, db, s3a, false⟩
    | .ok zipContents =>
      let maliciousFiles :=
        (zipContents.files.map (fun e => e.name)).filter matchesMaliciousPattern
      if maliciousFiles.length > 0 then
        ⟨.serverError "DeleteObjectCommand is not defined", db, s3a, false⟩
      else
        let iconFile := findIcon zipContents
        let iconKey := "icons/" ++ fileHash ++ ".png"
        let s3b := match iconFile with
          | some e => s3a.put iconKey e.content
          | none => s3a
        let iconUrl := match iconFile with
          | some _ =>
            some ("https://" ++ env.bucket ++ ".s3.amazonaws.com/" ++ iconKey)
          | none => none
        let shots :=
          (zipContents.files.filter (fun e => isScreenshotName e.name)).take 5
        let s3c := shots.enum.foldl
          (fun acc p =>
            acc.put
              ("screenshots/" ++ fileHash ++ "_" ++ toString p.1 ++ ".png")
              p.2.content)
          s3b
        let screenshotUrls := (List.range shots.length).map fun i =>
          "https://" ++ env.bucket ++ ".s3.amazonaws.com/screenshots/" ++
            fileHash ++ "_" ++ toString i ++ ".png"
        let app : AppRecord :=
          { id := db.nextId
            name := manifest.name
            version := manifest.version
            type := manifest.type
            entry_point := manifest.entryPoint
            permissions := manifest.permissions
            description := manifest.description
            author := manifest.author
            license := manifest.license
            icon_url := iconUrl
            screenshot_urls := screenshotUrls
            download_url :=
              "https://" ++ env.bucket ++ ".s3.amazonaws.com/" ++ s3Key
            hash := fileHash
            size := buffer.length
            verified := false
            upload_date := env.now
            downloads := 0
            rating := 0
            status := none
            last_scan := none
            scan_results := none
            threats := none }
        ⟨.ok app,
          { db with apps := db.apps ++ [app], nextId := db.nextId + 1 },
          s3c, true⟩

end Upload

/-! ## The local heuristic engine (scan route, lines 208–314) -/

/-- The keyword alternation of the suspicious-file regex
`/(malware|virus|exploit|backdoor|trojan|rat|keylogger)/i`
(scan route line 219). -/
def suspiciousKeywords : List String :=
  ["malware", "virus", "exploit", "backdoor", "trojan", "rat", "keylogger"]

/-- The suspicious-file filter of scan-route lines 218–222. JavaScript
`&&` binds tighter than `||`, giving three disjuncts: the case-insensitive
keyword search; a case-insensitive `so/dex/apk/jar` suffix together with a
case-sensitive `lib` substring; a case-sensitive `META-INF` substring
together with a case-sensitive `RSA/DSA/SF` suffix. -/
def isSuspiciousFileName (name : String) : Bool :=
  suspiciousKeywords.any (fun k => strContains (lowerStr name) k) ||
  (([".so", ".dex", ".apk", ".jar"].any fun s => strEndsWith (lowerStr name) s)
    && strContains name "lib") ||
  (strContains name "META-INF"
    && ([".RSA", ".DSA", ".SF"].any fun s => strEndsWith name s))

/-- The embedded-executable test `/\.(exe|dll|bat|sh)$/i` of scan-route
line 230. -/
def isEmbeddedExecutableName (name : String) : Bool :=
  [".exe", ".dll", ".bat", ".sh"].any fun s => strEndsWith (lowerStr name) s

/-- The fixed permission watch-list of scan-route lines 243–247. -/
def heuristicPermissionList : List String :=
  ["READ_SMS", "SEND_SMS", "RECEIVE_SMS", "ACCESS_FINE_LOCATION",
   "RECORD_AUDIO", "CAMERA", "READ_CONTACTS", "READ_CALENDAR"]

/-- The manifest checks of scan-route lines 239–261, applied to the text of
`AndroidManifest.xml` / `manifest.json` when one is present: more than five
watched permissions, and the literal debuggable flag. -/
def manifestReasons (content : String) : List Reason :=
  let foundPermissions :=
    heuristicPermissionList.filter fun p => strContains content p
  (if foundPermissions.length > 5 then
    [Reason.excessivePermissions foundPermissions] else []) ++
  (if strContains content "android:debuggable=\"true\"" then
    [Reason.debugMode] else [])

/-- The certificate check of scan-route lines 269–282: hash
`META-INF/CERT.RSA` (or `.DSA`) and look it up in `known_certs.json`. -/
def certReasons (env : Env) (archive : Archive) : List Reason :=
  match (archive.file "META-INF/CERT.RSA").orElse
      (fun _ => archive.file "META-INF/CERT.DSA") with
  | some e =>
    if env.knownBadCerts.contains (env.sha256 e.content) then
      [Reason.knownBadCert]
    else []
  | none => []

/-- Translation of `calculateEntropy` (scan route lines 297–314): Shannon entropy over the
256 byte values, `H = -Σ p(b)·log2(p(b))`, the sum restricted — exactly as
the `if (byteCounts[i] > 0)` guard does — to bytes that occur in the buffer.
For the empty buffer every count is zero, no term is added, and the result
is `0`, again as in the source. -/
noncomputable def calculateEntropy (buffer : Bytes) : ℝ :=
  -(∑ b : Byte,
    if 0 < buffer.count b then
      ((buffer.count b : ℝ) / (buffer.length : ℝ)) *
        Real.logb 2 ((buffer.count b : ℝ) / (buffer.length : ℝ))
    else 0)

/-- The `suspiciousIndicators` list built by `heuristicAnalysis` on its
success path, in push order: suspicious file names (one combined entry),
embedded executables (one entry per file), the manifest checks, the
high-entropy check (`entropy > 7.5`, line 265), and the certificate check. -/
noncomputable def heuristicReasons (env : Env) (buffer : Bytes)
    (archive : Archive) : List Reason :=
  let files := archive.files.map fun e => e.name
  let suspiciousFiles := files.filter isSuspiciousFileName
  (if suspiciousFiles.length > 0 then
    [Reason.suspiciousFiles suspiciousFiles] else []) ++
  ((files.filter isEmbeddedExecutableName).map Reason.embeddedExecutable) ++
  (match (archive.file "AndroidManifest.xml").orElse
      (fun _ => archive.file "manifest.json") with
   | some e => manifestReasons (env.asText e.content)
   | none => []) ++
  (if 7.5 < calculateEntropy buffer then
    [Reason.highEntropy (calculateEntropy buffer)] else []) ++
  certReasons env archive

/-- Translation of `heuristicAnalysis` (scan route lines 208–295). The whole body is inside
`try`/`catch`, so the function never throws: when `loadAsync` rejects, the
catch path returns `{suspicious: false, error}`; on success it returns
`suspicious = (suspiciousIndicators.length > 0)` together with the reasons,
the entropy and the file count. -/
noncomputable def heuristicAnalysis (env : Env) (buffer : Bytes) : HeurResult :=
  match env.loadZip buffer with
  | .error e =>
    { suspicious := false, reasons := [], entropy := none,
      file_count := none, error := some e }
  | .ok archive =>
    let reasons := heuristicReasons env buffer archive
    { suspicious := decide (reasons.length > 0)
      reasons := reasons
      entropy := some (calculateEntropy buffer)
      file_count := some archive.files.length
      error := none }

namespace Scan

/-- The threat compilation of scan-route lines 74–90: one entry per engine
whose settled result is present and positive (`is_infected`, `positives > 0`,
`matches.length > 0`, `suspicious` respectively); a rejected task contributes
its `null` slot and no entry. -/
def buildThreats (c : Option ClamResult) (v : Option VTResult)
    (y : Option YaraResult) (h : Option HeurResult) : List Threat :=
  (match c with
   | some r => if r.is_infected then [Threat.clamav r.viruses] else []
   | none => []) ++
  (match v with
   | some r =>
     if r.positives > 0 then [Threat.virustotal r.positives r.total] else []
   | none => []) ++
  (match y with
   | some r =>
     if r.rule_matches.length > 0 then [Threat.yara r.rule_matches] else []
   | none => []) ++
  (match h with
   | some r => if r.suspicious then [Threat.heuristic r.reasons] else []
   | none => [])

/-- The `results` object of scan-route lines 65–71 (`overall` is set to
`"clean"` there and never touched again). -/
def compileResults (c : Option ClamResult) (v : Option VTResult)
    (y : Option YaraResult) (h : Option HeurResult) : ScanResults :=
  ⟨c, v, y, h, "clean"⟩

/-- Scan-route line 93: the ternary picking malicious when `threats.length > 0` and clean otherwise. -/
def overallStatus (c : Option ClamResult) (v : Option VTResult)
    (y : Option YaraResult) (h : Option HeurResult) : String :=
  if (buildThreats c v y h).length > 0 then "malicious" else "clean"

/-- The scan route's possible JSON responses. -/
inductive Response where
  | missingParams
  | maliciousResp (threats : List Threat) (results : ScanResults)
  | cleanResp (results : ScanResults)

/-- Outcome of one scan request. `updates` records, in order, every
`apps`-table update call the route performs, as the pair of
the id filter and the `status` value written: the route's single such call
is lines 95–104. -/
structure Outcome where
  response : Response
  db : DB
  updates : List (Nat × Option String)

/-- The single `apps`-table update of scan-route lines
95–104, applied to one row: when the id matches, write
`verified` set to whether the status equals clean, `last_scan`, `scan_results`, `threats`
(`null` when empty) and `status`. -/
def updateRow (appId : Nat) (now : String) (c : Option ClamResult)
    (v : Option VTResult) (y : Option YaraResult) (h : Option HeurResult)
    (a : AppRecord) : AppRecord :=
  if a.id = appId then
    { a with
      verified := overallStatus c v y h == "clean"
      last_scan := some now
      scan_results := some (compileResults c v y h)
      threats :=
        if (buildThreats c v y h).length > 0 then some (buildThreats c v y h)
        else none
      status := some (overallStatus c v y h) }
  else a

/-- The scan route `POST` (scan route lines 41–142), from the settled engine
outcomes onward: compile `results`, build `threats`, compute the overall
status, update the `apps` row (see `updateRow`), and on a malicious verdict
insert a `threat_logs` row and notify the admin. The engine slots are the
four `Promise.allSettled` entries of lines 57–62 (`none` = rejected); in an
end-to-end run the heuristic slot is `some (heuristicAnalysis env buffer)`,
see `POSTWithBuffer`. -/
def POST (db : DB) (appId : Nat) (fileHash : String) (now : String)
    (c : Option ClamResult) (v : Option VTResult) (y : Option YaraResult)
    (h : Option HeurResult) : Outcome :=
  let results := compileResults c v y h
  let threats := buildThreats c v y h
  let status := overallStatus c v y h
  let apps := db.apps.map (updateRow appId now c v y h)
  if status = "malicious" then
    ⟨.maliciousResp threats results,
      { db with
        apps := apps
        threat_logs := db.threat_logs ++ [⟨appId, fileHash, threats, results, now⟩]
        admin_notifications := db.admin_notifications ++
          [⟨"malware_detected", appId, threats, now, "high"⟩] },
      [(appId, some status)]⟩
  else
    ⟨.cleanResp results, { db with apps := apps }, [(appId, some status)]⟩

/-- The end-to-end scan request on a downloaded buffer: the heuristic slot is
always fulfilled because `heuristicAnalysis` never throws. -/
noncomputable def POSTWithBuffer (env : Env) (db : DB) (appId : Nat)
    (fileHash : String) (c : Option ClamResult) (v : Option VTResult)
    (y : Option YaraResult) (buffer : Bytes) : Outcome :=
  POST db appId fileHash env.now c v y (some (heuristicAnalysis env buffer))

end Scan

namespace Install

/-- Models the split of `url` at `.s3.amazonaws.com/` (install route line 59): the text
after the first occurrence of the separator. -/
def afterSeg (sep : List Char) : List Char → Option (List Char)
  | [] => if sep.isEmpty then some [] else none
  | c :: cs =>
    if sep.isPrefixOf (c :: cs) then some ((c :: cs).drop sep.length)
    else afterSeg sep cs

def s3KeyOf (url : String) : String :=
  ⟨(afterSeg (".s3.amazonaws.com/".data) url.data).getD []⟩

/-- A filesystem / S3 side effect performed by the install route, in program
order. -/
inductive Effect where
  | s3Download (key : String)
  | mkdir (path : String)
  | writeFile (path : String)
  | decompileApk (dir : String)
  | extractArchive (dir : String)
  | copyDir (src dst : String)

/-- The install route's possible JSON responses. -/
inductive Response where
  | missingParams
  | notFound
  | forbidden (msg : String)
  | ok (installationPath dataPath : String)

/-- Outcome of one install request: the response, the database afterwards,
and every filesystem / S3 effect performed, in order. -/
structure Outcome where
  response : Response
  db : DB
  effects : List Effect

/-- The install route `POST` (`src/src/api/install/route.js`, lines 25–202):
look the app up by id (404 when absent); refuse with a 403
`App not verified` before any download, extraction or write when
`app.verified` is not true (lines 50–56); otherwise download the blob,
create the installation directory, decompile (`.apk`) or extract, parse the
manifest (its permission list enters as `parsedPermissions`), insert the
`installations` row, create and populate the data directory, write
`runtime.json`, bump the download counter, and insert the desktop
shortcut. -/
def POST (db : DB) (appId userId : Nat) (nowStr : String)
    (parsedPermissions : List String) : Outcome :=
  match db.apps.find? (fun a => a.id = appId) with
  | none => ⟨.notFound, db, []⟩
  | some app =>
    if app.verified = false then
      ⟨.forbidden "App not verified. Please wait for scanning to complete.",
        db, []⟩
    else
      let s3Key := s3KeyOf app.download_url
      let installDir :=
        "/tmp/fireos/apps/" ++ toString appId ++ "_" ++ nowStr
      let dataDir :=
        "/userdata/" ++ toString userId ++ "/apps/" ++ toString appId
      let isApk := strEndsWith app.download_url ".apk"
      let effects :=
        [Effect.s3Download s3Key, Effect.mkdir installDir] ++
        (if isApk then
          [Effect.writeFile (installDir ++ "/app.apk"),
           Effect.decompileApk installDir]
        else [Effect.extractArchive installDir]) ++
        [Effect.mkdir dataDir, Effect.copyDir installDir dataDir,
         Effect.writeFile (dataDir ++ "/runtime.json")]
      let db' :=
        { db with
          installations := db.installations ++
            [⟨userId, appId, nowStr, installDir, app.version, "installed",
              parsedPermissions, dataDir⟩]
          apps := db.apps.map fun a =>
            if a.id = appId then { a with downloads := a.downloads + 1 } else a
          shortcuts := db.shortcuts ++
            [⟨userId, appId, app.name, app.icon_url,
              "fireos://app/" ++ toString appId⟩] }
      ⟨.ok installDir dataDir, db', effects⟩

end Install

/-! ## Concrete fixtures used by witnesses and counterexamples -/

def emptyDB : DB := ⟨[], [], [], [], [], 1⟩

def emptyS3 : S3State := ⟨[]⟩

def sampleManifest : Manifest :=
  ⟨"App", "1.0", "webview", "index.html", [], "demo", "dev", "MIT"⟩

/-- Environment whose archive parse yields an empty, clean archive. -/
def envClean : Env :=
  { sha256 := fun _ => "deadbeef"
    loadZip := fun _ => .ok ⟨[]⟩
    asText := fun _ => ""
    knownBadCerts := []
    bucket := "b"
    now := "t0" }

/-- Environment whose archive parse always rejects. -/
def envBadZip : Env :=
  { sha256 := fun _ => "deadbeef"
    loadZip := fun _ => .error "invalid zip"
    asText := fun _ => ""
    knownBadCerts := []
    bucket := "b"
    now := "t0" }

/-- A positive finding in one of the four settled engine slots, in the exact
sense the scan route tests at lines 76–90. -/
def enginePositive (c : Option ClamResult) (v : Option VTResult)
    (y : Option YaraResult) (h : Option HeurResult) : Prop :=
  (∃ r, c = some r ∧ r.is_infected = true) ∨
  (∃ r, v = some r ∧ 0 < r.positives) ∨
  (∃ r, y = some r ∧ r.rule_matches ≠ []) ∨
  (∃ r, h = some r ∧ r.suspicious = true)

/-- The state invariant of the claim: a verified record is a clean record. -/
def invariantOK (a : AppRecord) : Prop :=
  a.verified = true → a.status = some "clean"

/-- Extractor for the `serverError` payload, for stating concrete evaluations. -/
def Upload.Response.serverErrorMsg : Upload.Response → Option String
  | .serverError msg => some msg
  | _ => none

/-- Extractor for the `maliciousDetected` payload, for stating concrete evaluations. -/
def Upload.Response.reportedMaliciousFiles : Upload.Response → Option (List String)
  | .maliciousDetected fs => some fs
  | _ => none

/-- The record that `Upload.POST envClean emptyDB emptyS3 "app.zip" []
sampleManifest` inserts: definitionally equal to the route's output. -/
def app1 : AppRecord :=
  { id := 1
    name := "App"
    version := "1.0"
    type := "webview"
    entry_point := "index.html"
    permissions := []
    description := "demo"
    author := "dev"
    license := "MIT"
    icon_url := none
    screenshot_urls := []
    download_url := "https://b.s3.amazonaws.com/apks/deadbeef.zip"
    hash := "deadbeef"
    size := 0
    verified := false
    upload_date := "t0"
    downloads := 0
    rating := 0
    status := none
    last_scan := none
    scan_results := none
    threats := none }

/-- The metadata store right after that upload. -/
def db1 : DB := ⟨[app1], [], [], [], [], 2⟩

/-- The record `app1` after a clean scan run with all remote slots rejected. -/
def app1scanned : AppRecord :=
  { app1 with
    verified := true
    last_scan := some "t1"
    scan_results := some ⟨none, none, none, none, "clean"⟩
    status := some "clean" }

/-- An archive holding one denylisted entry name. -/
def payloadArchive : Archive := ⟨[⟨"payload.exe", []⟩]⟩

/-- Environment whose archive parse yields `payloadArchive`. -/
def envMal : Env :=
  { sha256 := fun _ => "deadbeef"
    loadZip := fun _ => .ok payloadArchive
    asText := fun _ => ""
    knownBadCerts := []
    bucket := "b"
    now := "t0" }

/-- One clean-named entry of a million bytes. -/
def bigEntry : ZipEntry := ⟨"a.txt", List.replicate 1000000 (0 : Byte)⟩

/-- An archive-bomb-sized archive: 10^9 entries, 10^15 uncompressed bytes. -/
def bigArchive : Archive := ⟨List.replicate 1000000000 bigEntry⟩

/-- Environment whose archive parse yields `bigArchive`. -/
def envBig : Env :=
  { sha256 := fun _ => "deadbeef"
    loadZip := fun _ => .ok bigArchive
    asText := fun _ => ""
    knownBadCerts := []
    bucket := "b"
    now := "t0" }

/-! ## Inversion lemmas for the route functions -/

/-- Filtering a replicated list by a predicate false at its element gives
the empty list. -/
theorem filter_replicate_nil {α : Type} (p : α → Bool) (n : Nat) (x : α)
    (hx : p x = false) : (List.replicate n x).filter p = [] := by
  induction n with
  | zero => rfl
  | succ k ih => simp [List.replicate_succ, List.filter_cons, hx, ih]

/-- A duplicate hash short-circuits the upload route into the 409 response,
touching neither store. -/
theorem upload_conflict_shape (env : Env) (db : DB) (s3 : S3State)
    (fn : String) (buffer : Bytes) (m : Manifest) (x : AppRecord)
    (hfind : db.apps.find? (fun a => a.hash = env.sha256 buffer) = some x) :
    Upload.POST env db s3 fn buffer m = ⟨.conflict, db, s3, false⟩ := by
  unfold Upload.POST
  simp [hfind]

/-- Shape of a fresh, parseable, pattern-clean upload: the route returns the
inserted record, whose `verified` is false, whose `status` column is absent,
and whose hash is the content hash. -/
theorem upload_clean_shape (env : Env) (db : DB) (s3 : S3State) (fn : String)
    (buffer : Bytes) (m : Manifest) (archive : Archive)
    (hfind : db.apps.find? (fun a => a.hash = env.sha256 buffer) = none)
    (hzip : env.loadZip buffer = .ok archive)
    (hmal : (archive.files.map fun e => e.name).filter
      matchesMaliciousPattern = []) :
    ∃ app,
      (Upload.POST env db s3 fn buffer m).response = .ok app ∧
      (Upload.POST env db s3 fn buffer m).db =
        { db with apps := db.apps ++ [app], nextId := db.nextId + 1 } ∧
      app.verified = false ∧ app.status = none ∧
      app.hash = env.sha256 buffer := by
  unfold Upload.POST
  simp only [hfind, hzip, hmal, List.length_nil, gt_iff_lt, lt_self_iff_false,
    if_false]
  exact ⟨_, rfl, rfl, rfl, rfl, rfl⟩

/-- Every upload either leaves the database untouched (and is not an `ok`
response) or appends exactly one fresh record. -/
theorem upload_db_cases (env : Env) (db : DB) (s3 : S3State) (fn : String)
    (buffer : Bytes) (m : Manifest) :
    ((Upload.POST env db s3 fn buffer m).response.isOk = false ∧
      (Upload.POST env db s3 fn buffer m).db = db) ∨
    ∃ app archive,
      db.apps.find? (fun a => a.hash = env.sha256 buffer) = none ∧
      env.loadZip buffer = .ok archive ∧
      (Upload.POST env db s3 fn buffer m).response = .ok app ∧
      (Upload.POST env db s3 fn buffer m).db =
        { db with apps := db.apps ++ [app], nextId := db.nextId + 1 } ∧
      app.verified = false ∧ app.status = none ∧
      app.hash = env.sha256 buffer := by
  rcases Option.eq_none_or_eq_some
      (db.apps.find? (fun a => a.hash = env.sha256 buffer)) with hfind | ⟨x, hfind⟩
  · have hzc : (∃ e, env.loadZip buffer = .error e) ∨
        ∃ archive, env.loadZip buffer = .ok archive := by
      cases henv : env.loadZip buffer with
      | error e => exact Or.inl ⟨e, rfl⟩
      | ok archive => exact Or.inr ⟨archive, rfl⟩
    rcases hzc with ⟨e, hzip⟩ | ⟨archive, hzip⟩
    · left
      unfold Upload.POST
      simp [hfind, hzip, Upload.Response.isOk]
    · by_cases hmal : ((archive.files.map fun e => e.name).filter
          matchesMaliciousPattern).length > 0
      · left
        unfold Upload.POST
        simp [hfind, hzip, hmal, Upload.Response.isOk]
      · have hnil : (archive.files.map fun e => e.name).filter
            matchesMaliciousPattern = [] := by
          rcases Nat.eq_zero_or_pos ((archive.files.map fun e => e.name).filter
            matchesMaliciousPattern).length with h0 | h0
          · exact List.eq_nil_of_length_eq_zero h0
          · exact absurd h0 hmal
        rcases upload_clean_shape env db s3 fn buffer m archive hfind hzip hnil
          with ⟨app, h1, h2, h3, h4, h5⟩
        exact Or.inr ⟨app, archive, hfind, hzip, h1, h2, h3, h4, h5⟩
  · left
    rw [upload_conflict_shape env db s3 fn buffer m x hfind]
    exact ⟨rfl, rfl⟩

/-- Inverting an `ok` upload response. -/
theorem upload_ok_inv (env : Env) (db : DB) (s3 : S3State) (fn : String)
    (buffer : Bytes) (m : Manifest) (r : AppRecord)
    (h : (Upload.POST env db s3 fn buffer m).response = .ok r) :
    db.apps.find? (fun a => a.hash = env.sha256 buffer) = none ∧
    (Upload.POST env db s3 fn buffer m).db =
      { db with apps := db.apps ++ [r], nextId := db.nextId + 1 } ∧
    r.verified = false ∧ r.status = none ∧ r.hash = env.sha256 buffer := by
  rcases upload_db_cases env db s3 fn buffer m with ⟨hf, _⟩ |
    ⟨app, archive, h1, h2, h3, h4, h5, h6, h7⟩
  · rw [h] at hf
    simp [Upload.Response.isOk] at hf
  · rw [h] at h3
    simp only [Upload.Response.ok.injEq] at h3
    subst h3
    exact ⟨h1, h4, h5, h6, h7⟩

/-- The scan route rewrites the `apps` table by its single row update. -/
theorem scan_post_apps (db : DB) (appId : Nat) (fh now : String)
    (c : Option ClamResult) (v : Option VTResult) (y : Option YaraResult)
    (h : Option HeurResult) :
    (Scan.POST db appId fh now c v y h).db.apps =
      db.apps.map (Scan.updateRow appId now c v y h) := by
  by_cases hM : Scan.overallStatus c v y h = "malicious" <;>
    simp [Scan.POST, hM]

/-- The scan route performs exactly one `apps` status write. -/
theorem scan_post_updates (db : DB) (appId : Nat) (fh now : String)
    (c : Option ClamResult) (v : Option VTResult) (y : Option YaraResult)
    (h : Option HeurResult) :
    (Scan.POST db appId fh now c v y h).updates =
      [(appId, some (Scan.overallStatus c v y h))] := by
  by_cases hM : Scan.overallStatus c v y h = "malicious" <;>
    simp [Scan.POST, hM]

/-! ## Claim theorems -/

/-- C7 of the claims: the entropy computation is the pure Shannon-entropy
function `H = -Σ p(b)·log2(p(b))` over the 256 byte values — identical bytes
give identical entropy, an all-zero buffer of any length has entropy 0, and
within `heuristicAnalysis` a value strictly greater than 7.5 is flagged (the
`highEntropy` indicator appears among the reasons exactly when
`calculateEntropy buffer > 7.5`). -/
theorem entropy_pure_allzero_high_flag :
    (∀ b1 b2 : Bytes, b1 = b2 → calculateEntropy b1 = calculateEntropy b2) ∧
    (∀ n : Nat, calculateEntropy (List.replicate n (0 : Byte)) = 0) ∧
    (∀ (env : Env) (buffer : Bytes) (archive : Archive),
      env.loadZip buffer = .ok archive →
      (Reason.highEntropy (calculateEntropy buffer) ∈
          (heuristicAnalysis env buffer).reasons ↔
        7.5 < calculateEntropy buffer)) := by
  refine ⟨fun b1 b2 h => by rw [h], ?_, ?_⟩
  · intro n
    unfold calculateEntropy
    rw [neg_eq_zero]
    apply Finset.sum_eq_zero
    intro b _
    by_cases hb : b = 0
    · subst hb
      rcases Nat.eq_zero_or_pos n with hn | hn
      · subst hn; simp
      · have hcount : (List.replicate n (0 : Byte)).count 0 = n :=
          List.count_replicate_self ..
        have hlen : (List.replicate n (0 : Byte)).length = n :=
          List.length_replicate ..
        rw [hcount, hlen, if_pos hn]
        have hnR : (n : ℝ) ≠ 0 := Nat.cast_ne_zero.mpr (by omega)
        rw [div_self hnR, Real.logb_one, mul_zero]
    · have hcount : (List.replicate n (0 : Byte)).count b = 0 := by
        rw [List.count_replicate, if_neg]
        simp only [beq_iff_eq]
        exact fun hc => hb hc.symm
      rw [hcount]
      simp
  · intro env buffer archive h
    have hred : (heuristicAnalysis env buffer).reasons =
        heuristicReasons env buffer archive := by
      unfold heuristicAnalysis
      rw [h]
    rw [hred]
    unfold heuristicReasons
    by_cases hE : 7.5 < calculateEntropy buffer
    · simp only [if_pos hE, List.mem_append, List.mem_singleton]
      tauto
    · refine iff_of_false ?_ hE
      intro hmem
      simp only [if_neg hE, List.append_nil, List.append_assoc,
        List.mem_append] at hmem
      rcases hmem with h1 | h1 | h1 | h1
      · revert h1
        split <;> simp
      · rcases List.mem_map.mp h1 with ⟨x, _, hx⟩
        exact Reason.noConfusion hx
      · revert h1
        split
        · unfold manifestReasons
          simp only [List.mem_append]
          rintro (hm | hm) <;> revert hm <;> split <;> simp
        · simp
      · revert h1
        unfold certReasons
        split
        · split <;> simp
        · simp

/-- Witness for `entropy_pure_allzero_high_flag` at a concrete input. -/
theorem entropy_pure_allzero_high_flag_witness :
    calculateEntropy [] = calculateEntropy [] ∧
    (Reason.highEntropy (calculateEntropy []) ∈
        (heuristicAnalysis envClean []).reasons ↔
      7.5 < calculateEntropy []) :=
  ⟨entropy_pure_allzero_high_flag.1 [] [] rfl,
   entropy_pure_allzero_high_flag.2.2 envClean [] ⟨[]⟩ rfl⟩

/-- C8 of the claims: `heuristicAnalysis` never throws — when the archive
parse fails it returns `suspicious = false` with the error recorded, and on
success `suspicious` is true exactly when the collected reasons list is
non-empty (and no error is recorded). -/
theorem heuristic_never_throws :
    ∀ (env : Env) (buffer : Bytes),
      (∀ e, env.loadZip buffer = .error e →
        heuristicAnalysis env buffer =
          { suspicious := false, reasons := [], entropy := none,
            file_count := none, error := some e }) ∧
      (∀ archive, env.loadZip buffer = .ok archive →
        ((heuristicAnalysis env buffer).suspicious = true ↔
          (heuristicAnalysis env buffer).reasons ≠ []) ∧
        (heuristicAnalysis env buffer).error = none) := by
  intro env buffer
  constructor
  · intro e he
    unfold heuristicAnalysis
    rw [he]
  · intro archive h
    unfold heuristicAnalysis
    rw [h]
    refine ⟨?_, rfl⟩
    simp only [decide_eq_true_eq]
    constructor
    · intro hlen
      exact List.ne_nil_of_length_pos hlen
    · intro hne
      exact List.length_pos.mpr hne

/-- Witness for `heuristic_never_throws` at a concrete input. -/
theorem heuristic_never_throws_witness :
    heuristicAnalysis envBadZip [] =
      { suspicious := false, reasons := [], entropy := none,
        file_count := none, error := some "invalid zip" } :=
  (heuristic_never_throws envBadZip []).1 "invalid zip" rfl

/-- C2 of the claims: the aggregate verdict is `malicious` iff at least one
engine reports a positive finding; a failed (rejected, `none`) engine slot
contributes no finding; and in the degenerate case where every engine failed
the verdict is `clean`. -/
theorem scan_verdict_any_positive :
    (∀ c v y h,
      Scan.overallStatus c v y h = "malicious" ↔ enginePositive c v y h) ∧
    Scan.overallStatus none none none none = "clean" := by
  constructor
  · intro c v y h
    have key : (Scan.buildThreats c v y h).length > 0 ↔ enginePositive c v y h := by
      cases c <;> cases v <;> cases y <;> cases h <;>
        simp [Scan.buildThreats, enginePositive] <;>
        split_ifs <;> simp_all [List.length_pos]
    unfold Scan.overallStatus
    split_ifs with hl
    · simp only [true_iff]
      exact key.mp hl
    · constructor
      · intro habs
        exact absurd habs (by decide)
      · intro hp
        exact absurd (key.mpr hp) hl
  · rfl

/-- C6 of the claims: every state the pipeline writes satisfies
`verified = true → status = "clean"` — intake inserts every record with
`verified = false`, both routes preserve the invariant across the whole
`apps` table, and the scan update sets `verified` to true exactly when the
computed status is clean. -/
theorem verified_implies_clean :
    (∀ env db s3 fn buffer m r,
      (Upload.POST env db s3 fn buffer m).response = .ok r →
      r.verified = false) ∧
    (∀ env db s3 fn buffer m a,
      (∀ x ∈ db.apps, invariantOK x) →
      a ∈ (Upload.POST env db s3 fn buffer m).db.apps → invariantOK a) ∧
    (∀ db appId fh now c v y h a,
      (∀ x ∈ db.apps, invariantOK x) →
      a ∈ (Scan.POST db appId fh now c v y h).db.apps → invariantOK a) ∧
    (∀ db appId fh now c v y h a,
      a ∈ (Scan.POST db appId fh now c v y h).db.apps → a.id = appId →
      (a.verified = true ↔ a.status = some "clean")) := by
  refine ⟨?_, ?_, ?_, ?_⟩
  · intro env db s3 fn buffer m r hr
    exact (upload_ok_inv env db s3 fn buffer m r hr).2.2.1
  · intro env db s3 fn buffer m a hdb ha
    rcases upload_db_cases env db s3 fn buffer m with ⟨_, hdb0⟩ |
      ⟨app, archive, _, _, _, h4, h5, _, _⟩
    · rw [hdb0] at ha
      exact hdb a ha
    · rw [h4] at ha
      simp only [List.mem_append, List.mem_singleton] at ha
      rcases ha with ha | rfl
      · exact hdb a ha
      · intro hv
        rw [h5] at hv
        exact absurd hv (by decide)
  · intro db appId fh now c v y h a hdb ha
    rw [scan_post_apps] at ha
    rcases List.mem_map.mp ha with ⟨a0, ha0, rfl⟩
    unfold Scan.updateRow
    split
    · intro hv
      simp only at hv ⊢
      rw [beq_iff_eq] at hv
      rw [hv]
    · exact hdb a0 ha0
  · intro db appId fh now c v y h a ha hid
    rw [scan_post_apps] at ha
    rcases List.mem_map.mp ha with ⟨a0, ha0, rfl⟩
    revert hid
    unfold Scan.updateRow
    split
    · intro _
      simp only
      constructor
      · intro hv
        rw [beq_iff_eq] at hv
        rw [hv]
      · intro hs
        simp only [Option.some.injEq] at hs
        rw [hs]
        exact beq_self_eq_true _
    · intro hid
      exact absurd hid (by assumption)

/-- C9's amended statement: the malicious-pattern check collects every
matching entry name (no short-circuit), and a name matches exactly when a
denylisted suffix matches its lower-cased form (the `i`-flagged alternation)
or one of the junk artifacts `__MACOSX` / `.DS_Store` occurs in it verbatim
(those two patterns carry no `i` flag). -/
theorem malicious_patterns_collect_all :
    (∀ (zipContents : Archive) (n : String),
      n ∈ (zipContents.files.map fun e => e.name).filter
          matchesMaliciousPattern ↔
        n ∈ (zipContents.files.map fun e => e.name) ∧
          matchesMaliciousPattern n = true) ∧
    (∀ n : String,
      matchesMaliciousPattern n = true ↔
        ((∃ s ∈ maliciousSuffixes, strEndsWith (lowerStr n) s = true) ∨
          strContains n "__MACOSX" = true ∨
          strContains n ".DS_Store" = true)) := by
  constructor
  · intro zipContents n
    exact List.mem_filter
  · intro n
    simp [matchesMaliciousPattern, List.any_eq_true, or_assoc]

/-- C9's counterexample to the claim as stated: the junk artifacts are not
matched case-insensitively. The entry name `.ds_store` matches the denylist
under the specification's all-case-insensitive reading, yet the code's
pattern check rejects it and the collected malicious-file list stays
empty. -/
theorem junk_pattern_case_sensitivity_cex :
    specCaseInsensitiveMatch ".ds_store" = true ∧
    matchesMaliciousPattern ".ds_store" = false ∧
    ((Archive.files ⟨[⟨".ds_store", []⟩]⟩).map (fun e => e.name)).filter
      matchesMaliciousPattern = [] := by
  exact ⟨by decide, by decide, by decide⟩

/-- C10 of the claims: the install route refuses every package whose
`verified` flag is not true with the 403 `App not verified` response, before
performing any download, extraction or write (no effects, database
unchanged); conversely any request that performs an effect was for a
verified app. -/
theorem install_requires_verified :
    (∀ db appId userId nowStr perms app,
      db.apps.find? (fun a => a.id = appId) = some app →
      app.verified = false →
      Install.POST db appId userId nowStr perms =
        ⟨.forbidden "App not verified. Please wait for scanning to complete.",
          db, []⟩) ∧
    (∀ db appId userId nowStr perms,
      (Install.POST db appId userId nowStr perms).effects ≠ [] →
      ∃ app, db.apps.find? (fun a => a.id = appId) = some app ∧
        app.verified = true) := by
  constructor
  · intro db appId userId nowStr perms app hfind hv
    unfold Install.POST
    simp [hfind, hv]
  · intro db appId userId nowStr perms heff
    unfold Install.POST at heff
    cases hfind : db.apps.find? (fun a => a.id = appId) with
    | none => simp [hfind] at heff
    | some app =>
      by_cases hv : app.verified = false
      · simp [hfind, hv] at heff
      · refine ⟨app, rfl, ?_⟩
        revert hv
        cases app.verified <;> simp

/-- Witness for `install_requires_verified` at a concrete unverified app. -/
theorem install_requires_verified_witness :
    Install.POST db1 1 7 "t1" [] =
      ⟨.forbidden "App not verified. Please wait for scanning to complete.",
        db1, []⟩ :=
  install_requires_verified.1 db1 1 7 "t1" [] app1 rfl rfl

/-- Witness for `verified_implies_clean`: the invariant holds of the row a
concrete clean scan writes. -/
theorem verified_implies_clean_witness : invariantOK app1scanned :=
  verified_implies_clean.2.2.1 db1 1 "deadbeef" "t1" none none none none
    app1scanned
    (fun x hx => by
      have hx1 : x = app1 := by simpa [db1] using hx
      subst hx1
      intro hv
      exact absurd hv (by decide))
    (by
      rw [scan_post_apps]
      exact List.mem_singleton.mpr rfl)

/-- C3 of the claims: re-ingesting the same bytes after a successful ingest
hits the duplicate-hash check before any storage write — the second call
returns the 409 conflict, touches neither the metadata store nor the blob
store, and exactly one stored record carries that content hash. -/
theorem dedup_second_ingest_conflict :
    ∀ env db s3 fn fn2 buffer m m2,
      (Upload.POST env db s3 fn buffer m).response.isOk = true →
      (Upload.POST env (Upload.POST env db s3 fn buffer m).db
          (Upload.POST env db s3 fn buffer m).s3 fn2 buffer m2).response =
        .conflict ∧
      (Upload.POST env (Upload.POST env db s3 fn buffer m).db
          (Upload.POST env db s3 fn buffer m).s3 fn2 buffer m2).db =
        (Upload.POST env db s3 fn buffer m).db ∧
      (Upload.POST env (Upload.POST env db s3 fn buffer m).db
          (Upload.POST env db s3 fn buffer m).s3 fn2 buffer m2).s3 =
        (Upload.POST env db s3 fn buffer m).s3 ∧
      ((Upload.POST env db s3 fn buffer m).db.apps.filter
        (fun a => a.hash = env.sha256 buffer)).length = 1 ∧
      (db.apps.filter (fun a => a.hash = env.sha256 buffer)).length = 0 := by
  intro env db s3 fn fn2 buffer m m2 hok
  rcases upload_db_cases env db s3 fn buffer m with ⟨hf, _⟩ |
    ⟨app, archive, h1, h2, h3, h4, h5, h6, h7⟩
  · rw [hok] at hf
    cases hf
  · have hfilter0 : db.apps.filter (fun a => a.hash = env.sha256 buffer) = [] := by
      rw [List.filter_eq_nil_iff]
      exact List.find?_eq_none.mp h1
    have hfind2 : (Upload.POST env db s3 fn buffer m).db.apps.find?
        (fun a => a.hash = env.sha256 buffer) = some app := by
      rw [h4]
      show (db.apps ++ [app]).find? (fun a => decide (a.hash = env.sha256 buffer)) = some app
      rw [List.find?_append, h1]
      simp [List.find?_cons, h7]
    have hconf := upload_conflict_shape env (Upload.POST env db s3 fn buffer m).db
      (Upload.POST env db s3 fn buffer m).s3 fn2 buffer m2 app hfind2
    refine ⟨?_, ?_, ?_, ?_, ?_⟩
    · rw [hconf]
    · rw [hconf]
    · rw [hconf]
    · rw [h4]
      show ((db.apps ++ [app]).filter (fun a => decide (a.hash = env.sha256 buffer))).length = 1
      rw [List.filter_append, hfilter0]
      simp [List.filter_cons, h7]
    · rw [hfilter0]
      rfl

/-- Witness for `dedup_second_ingest_conflict` at a concrete double upload. -/
theorem dedup_second_ingest_conflict_witness :
    (Upload.POST envClean (Upload.POST envClean emptyDB emptyS3 "app.zip" []
        sampleManifest).db
        (Upload.POST envClean emptyDB emptyS3 "app.zip" [] sampleManifest).s3
        "app.zip" [] sampleManifest).response = .conflict ∧
    (Upload.POST envClean (Upload.POST envClean emptyDB emptyS3 "app.zip" []
        sampleManifest).db
        (Upload.POST envClean emptyDB emptyS3 "app.zip" [] sampleManifest).s3
        "app.zip" [] sampleManifest).db =
      (Upload.POST envClean emptyDB emptyS3 "app.zip" [] sampleManifest).db ∧
    (Upload.POST envClean (Upload.POST envClean emptyDB emptyS3 "app.zip" []
        sampleManifest).db
        (Upload.POST envClean emptyDB emptyS3 "app.zip" [] sampleManifest).s3
        "app.zip" [] sampleManifest).s3 =
      (Upload.POST envClean emptyDB emptyS3 "app.zip" [] sampleManifest).s3 ∧
    ((Upload.POST envClean emptyDB emptyS3 "app.zip" []
        sampleManifest).db.apps.filter
      (fun a => a.hash = envClean.sha256 [])).length = 1 ∧
    (emptyDB.apps.filter (fun a => a.hash = envClean.sha256 [])).length = 0 :=
  dedup_second_ingest_conflict envClean emptyDB emptyS3 "app.zip" "app.zip" []
    sampleManifest sampleManifest rfl

/-- C4's amended statement: intake inserts the record with no `status` value
(the `uploaded` status exists only in the HTTP response body), and the scan
route performs exactly one `apps` status write, directly to the terminal
`clean`/`malicious` value — no `scanning` status is ever stored, so a reader
polling the store never observes one. -/
theorem status_single_terminal_write :
    (∀ env db s3 fn buffer m r,
      (Upload.POST env db s3 fn buffer m).response = .ok r →
      r.status = none) ∧
    (∀ db appId fh now c v y h,
      (Scan.POST db appId fh now c v y h).updates =
        [(appId, some (Scan.overallStatus c v y h))] ∧
      (Scan.overallStatus c v y h = "clean" ∨
        Scan.overallStatus c v y h = "malicious")) := by
  constructor
  · intro env db s3 fn buffer m r hr
    exact (upload_ok_inv env db s3 fn buffer m r hr).2.2.2.1
  · intro db appId fh now c v y h
    refine ⟨scan_post_updates db appId fh now c v y h, ?_⟩
    unfold Scan.overallStatus
    split_ifs
    · exact Or.inr rfl
    · exact Or.inl rfl

/-- Witness for `status_single_terminal_write` at a concrete upload and a
concrete scan. -/
theorem status_single_terminal_write_witness :
    app1.status = none ∧
    (Scan.POST db1 1 "deadbeef" "t1" none none none none).updates =
      [(1, some (Scan.overallStatus none none none none))] :=
  ⟨status_single_terminal_write.1 envClean emptyDB emptyS3 "app.zip" []
      sampleManifest app1 rfl,
   (status_single_terminal_write.2 db1 1 "deadbeef" "t1" none none none
      none).1⟩

/-- C4's counterexample to the claim as stated: in a concrete end-to-end run
the inserted record's status is `none` (not `uploaded`), and the complete
list of status writes the scan performs is the single terminal write — no
`scanning` status is ever written between them. -/
theorem status_scanning_never_stored_cex :
    ((Upload.POST envClean emptyDB emptyS3 "app.zip" []
        sampleManifest).db.apps.map fun a => a.status) = [none] ∧
    (Scan.POST db1 1 "deadbeef" "t1" none none none none).updates =
      [(1, some "clean")] ∧
    ((Scan.POST db1 1 "deadbeef" "t1" none none none none).db.apps.map
      fun a => a.status) = [some "clean"] := by
  refine ⟨rfl, rfl, rfl⟩

/-- C5's amended statement: entry enumeration imposes no entry-count or
uncompressed-size ceiling and the route has no `ArchiveTooLarge` failure —
any fresh, parseable archive whose entry names pass the malicious-pattern
check is accepted, whatever its entry count or total size. -/
theorem no_archive_size_ceiling :
    ∀ env db s3 fn buffer m archive,
      db.apps.find? (fun a => a.hash = env.sha256 buffer) = none →
      env.loadZip buffer = .ok archive →
      (archive.files.map fun e => e.name).filter matchesMaliciousPattern = [] →
      (Upload.POST env db s3 fn buffer m).response.isOk = true ∧
      (Upload.POST env db s3 fn buffer m).db.apps.length =
        db.apps.length + 1 := by
  intro env db s3 fn buffer m archive hfind hzip hmal
  rcases upload_clean_shape env db s3 fn buffer m archive hfind hzip hmal with
    ⟨app, h1, h2, _, _, _⟩
  constructor
  · rw [h1]
    rfl
  · rw [h2]
    simp

/-- Witness for `no_archive_size_ceiling` at a concrete upload. -/
theorem no_archive_size_ceiling_witness :
    (Upload.POST envClean emptyDB emptyS3 "app.zip" []
      sampleManifest).response.isOk = true ∧
    (Upload.POST envClean emptyDB emptyS3 "app.zip" []
      sampleManifest).db.apps.length = emptyDB.apps.length + 1 :=
  no_archive_size_ceiling envClean emptyDB emptyS3 "app.zip" [] sampleManifest
    ⟨[]⟩ rfl rfl rfl

/-- C5's counterexample to the claim as stated: an archive of a billion
entries holding a million bytes each — beyond any archive-bomb ceiling — is
accepted by intake; nothing ever fails with `ArchiveTooLarge`. -/
theorem archive_bomb_accepted_cex :
    bigArchive.files.length = 1000000000 ∧
    bigEntry.content.length = 1000000 ∧
    (Upload.POST envBig emptyDB emptyS3 "app.zip" []
      sampleManifest).response.isOk = true := by
  have hmal : (bigArchive.files.map fun e => e.name).filter
      matchesMaliciousPattern = [] := by
    have hnames : bigArchive.files.map (fun e => e.name) =
        List.replicate 1000000000 "a.txt" := by
      show (List.replicate 1000000000 bigEntry).map (fun e => e.name) =
        List.replicate 1000000000 "a.txt"
      rw [List.map_replicate]
      rfl
    rw [hnames]
    exact filter_replicate_nil _ _ _ (by decide)
  refine ⟨?_, ?_, ?_⟩
  · show (List.replicate 1000000000 bigEntry).length = 1000000000
    exact List.length_replicate ..
  · show (List.replicate 1000000 (0 : Byte)).length = 1000000
    exact List.length_replicate ..
  · rcases upload_clean_shape envBig emptyDB emptyS3 "app.zip" []
      sampleManifest bigArchive rfl rfl hmal with ⟨app, h1, _, _, _, _⟩
    rw [h1]
    rfl

/-- C1 of the claims, evaluated at the failing input: because line 3 of the
upload route never imports `DeleteObjectCommand`, the malicious branch throws
`ReferenceError: DeleteObjectCommand is not defined` — so an archive holding
the denylisted `payload.exe` is answered with the generic 500 (not the
malicious-files 400), the offending names are never reported, no record is
created, the scan is not triggered, and the uploaded blob stays in the
content store under the content's hash instead of being deleted. -/
theorem malicious_upload_blob_retained :
    matchesMaliciousPattern "payload.exe" = true ∧
    (Upload.POST envMal emptyDB emptyS3 "app.zip" []
      sampleManifest).response.serverErrorMsg =
        some "DeleteObjectCommand is not defined" ∧
    (Upload.POST envMal emptyDB emptyS3 "app.zip" []
      sampleManifest).response.reportedMaliciousFiles = none ∧
    (Upload.POST envMal emptyDB emptyS3 "app.zip" []
      sampleManifest).s3.hasKey "apks/deadbeef.zip" = true ∧
    (Upload.POST envMal emptyDB emptyS3 "app.zip" []
      sampleManifest).db.apps.length = 0 ∧
    (Upload.POST envMal emptyDB emptyS3 "app.zip" []
      sampleManifest).scanTriggered = false := by
  exact ⟨by decide, by decide, by decide, by decide, by decide, by decide⟩

end FireOS
